import Mathlib

/-!
Verification of the EntityDisambiguation entity-resolution engine.

Shallow embedding of the Python sources:
* `src/config/settings.py`          — numeric configuration constants
* `src/models/entity.py`            — data model (Entity, EntityScore, results)
* `src/services/disambiguation.py`  — score fusion, decision engine, retrieval merge
* `src/services/vectorization.py`   — FAISS inner-product search (lines 557-604)
* `src/services/database_factory.py`— backend registry and refresh

Floats are modelled as rationals (all configured constants are decimal
fractions; every claim is about order comparisons and exact arithmetic
identities that are insensitive to this choice).  External capabilities
(embedder, pair scorer, stores) are supplied as explicit environment
records; exceptions are modelled with `Except Unit` / outcome flags,
mirroring each `try/except` of the source.
-/

namespace EntityDisambiguation

/-! ## Configuration constants (src/config/settings.py) -/

def HIGH_THRESHOLD : ℚ := 72/100
def LOW_THRESHOLD : ℚ := 6/10
def FAISS_TOP_K : ℕ := 10
def BGE_WEIGHT : ℚ := 4/10
def CROSS_ENCODER_WEIGHT : ℚ := 3/10
def FUZZ_WEIGHT : ℚ := 2/10
def LEVENSHTEIN_WEIGHT : ℚ := 1/10
def TYPE_MISMATCH_PENALTY : ℚ := 1/10
def TYPE_MATCH_BONUS : ℚ := 1

/-! ## Data model (src/models/entity.py)

The scoring and retrieval code (`disambiguation.py`) treats `entity.type`
as an optional open string (`if not input_entity.type`, arbitrary equality
comparison), so the embedding carries `type : Option String`.  The closed
enumeration that `entity.py` actually imposes on this field is modelled
separately by `entity_type_field_valid` below. -/

structure Entity where
  id : Option String := none
  name : String
  type : Option String := none
  aliases : List String := []
  definition : Option String := none
  deriving Repr, DecidableEq, Inhabited

structure EntityScore where
  bge_score : ℚ := 0
  cross_encoder_score : ℚ := 0
  fuzz_score : ℚ := 0
  levenshtein_score : ℚ := 0
  final_score : ℚ := 0
  deriving Repr, DecidableEq, Inhabited

inductive DecisionType where
  | merge
  | create
  | ambiguous
  deriving Repr, DecidableEq, Inhabited

structure DisambiguationResult where
  decision : DecisionType
  match_id : Option String := none
  match_entity : Option Entity := none
  scores : EntityScore
  confidence : ℚ := 0
  reasoning : String := ""
  deriving Repr, DecidableEq, Inhabited

/-- Python truthiness of an optional string: `None` and `""` are falsy. -/
def optStrTruthy : Option String → Bool
  | none => false
  | some s => !s.isEmpty

/-- Values of `EntityType(str, Enum)`, src/models/entity.py lines 9-18: the closed
value set of the `type` field. -/
def EntityType_values : List String :=
  ["疾病", "症状", "药物", "治疗", "基因", "蛋白质", "器官", "其他"]

/-- Pydantic validation of the `type` field declared in
src/models/entity.py line 24: `type: EntityType = Field(...)` — the field
is required (absence rejected) and its value must coerce into the closed
`EntityType` enumeration (any other string rejected). -/
def entity_type_field_valid : Option String → Bool
  | none => false
  | some t => EntityType_values.contains t

/-! ## Score normalization and type multiplier (disambiguation.py) -/

/-- Embeds `normalize_crossencoder_score`, disambiguation.py lines 42-51. -/
def normalize_crossencoder_score (score : ℚ) : ℚ :=
  let min_score : ℚ := -65/10
  let max_score : ℚ := 77/10
  let normalized := (score - min_score) / (max_score - min_score)
  max 0 (min 1 normalized)

/-- Embeds `_calculate_type_multiplier`, disambiguation.py lines 300-311. -/
def calculate_type_multiplier (input_entity candidate_entity : Entity) : ℚ :=
  if !optStrTruthy input_entity.type || !optStrTruthy candidate_entity.type then 1
  else if input_entity.type = candidate_entity.type then TYPE_MATCH_BONUS
  else TYPE_MISMATCH_PENALTY

/-! ## String similarity primitives

`disambiguation.py` uses two external string metrics:
`Levenshtein.distance` (unit-cost edit distance) and rapidfuzz
`fuzz.token_sort_ratio` (whitespace tokens of each side sorted and
rejoined, then the normalized indel similarity `100·2·lcs/(|a|+|b|)`).
Both are embedded from their documented definitions. -/

/-- Unit-cost Levenshtein edit distance. -/
def lev : List Char → List Char → ℕ
  | [], ys => ys.length
  | x :: xs, [] => (x :: xs).length
  | x :: xs, y :: ys =>
    if x = y then lev xs ys
    else 1 + min (lev (x :: xs) ys) (min (lev xs (y :: ys)) (lev xs ys))
termination_by a b => a.length + b.length
decreasing_by all_goals (simp [List.length_cons]; try omega)

/-- Length of a longest common subsequence. -/
def lcsLen : List Char → List Char → ℕ
  | [], _ => 0
  | _ :: _, [] => 0
  | x :: xs, y :: ys =>
    if x = y then lcsLen xs ys + 1
    else max (lcsLen (x :: xs) ys) (lcsLen xs (y :: ys))
termination_by a b => a.length + b.length
decreasing_by all_goals (simp [List.length_cons]; try omega)

/-- Whitespace tokens of a string, sorted and rejoined with single spaces
(the preprocessing of `fuzz.token_sort_ratio`). -/
def sortTokens (s : String) : String :=
  String.intercalate " "
    (List.insertionSort (· ≤ ·) ((s.split Char.isWhitespace).filter (fun t => !t.isEmpty)))

/-- rapidfuzz `fuzz.ratio`: normalized indel similarity scaled to 0-100
(`100` for two empty strings). -/
def fuzzRatio (a b : String) : ℚ :=
  let la : ℚ := a.toList.length
  let lb : ℚ := b.toList.length
  if a.toList.length + b.toList.length = 0 then 100
  else 100 * (2 * (lcsLen a.toList b.toList : ℚ)) / (la + lb)

/-- rapidfuzz `fuzz.token_sort_ratio`. -/
def token_sort_ratio (a b : String) : ℚ :=
  fuzzRatio (sortTokens a) (sortTokens b)

/-- One name/name pairing of `_calculate_levenshtein_score`
(disambiguation.py lines 347-369): `1 - distance/max_len` when
`max_len > 0`, else `0.0`. -/
def levPairScore (a b : String) : ℚ :=
  let max_len := max a.toList.length b.toList.length
  if 0 < max_len then 1 - (lev a.toList b.toList : ℚ) / (max_len : ℚ) else 0

/-- Python `max(scores) if scores else 0.0`. -/
def maxOrZero : List ℚ → ℚ
  | [] => 0
  | x :: xs => xs.foldl max x

/-- The alias-pairing score list built by `_calculate_fuzz_score` and
`_calculate_levenshtein_score` (three loops, in source order:
aliases×aliases, input aliases×candidate name, input name×candidate
aliases), for a base pair metric `f`. -/
def pairScores (f : String → String → ℚ) (a b : Entity) : List ℚ :=
  (a.aliases.flatMap fun ia => b.aliases.map fun ca => f ia ca)
    ++ a.aliases.map (fun ia => f ia b.name)
    ++ b.aliases.map (fun ca => f a.name ca)

/-- Shared shape of the two string-score functions: maximum of the
name/name score and of all alias pairings (`0.0` when there are none). -/
def maxPairScore (f : String → String → ℚ) (a b : Entity) : ℚ :=
  max (f a.name b.name) (maxOrZero (pairScores f a b))

/-- Embeds `_calculate_fuzz_score`, disambiguation.py lines 313-341
(non-exceptional path; each pairing is `token_sort_ratio/100`). -/
def calculate_fuzz_score (input_entity candidate_entity : Entity) : ℚ :=
  maxPairScore (fun s t => token_sort_ratio s t / 100) input_entity candidate_entity

/-- Embeds `_calculate_levenshtein_score`, disambiguation.py lines 343-379
(non-exceptional path). -/
def calculate_levenshtein_score (input_entity candidate_entity : Entity) : ℚ :=
  maxPairScore levPairScore input_entity candidate_entity

/-! ## Score fusion (`_calculate_comprehensive_score`, disambiguation.py 259-298)

The body sits in one `try`.  Step 1 calls the CrossEncoder: if the model
never loaded (`self.cross_encoder is None`) the branch is skipped and the
rerank sub-score stays `0.0`; if the loaded model's `predict` raises, the
whole `try` aborts and the `except` sets `final_score = bge_score * 0.5`
with the other sub-scores still at their `0.0` defaults.  The fuzz and
levenshtein helpers each have their own internal `except` returning
`0.0`, modelled by the failure flags. -/

inductive CrossEncoderState where
  /-- State `self.cross_encoder is None` after `load_cross_encoder` failed. -/
  | unavailable
  /-- Call to `predict` returns the raw real-valued score. -/
  | ok (raw : ℚ)
  /-- Call to `predict` (or text construction) raises. -/
  | raises
  deriving Repr, DecidableEq, Inhabited

structure FusionEnv where
  cross : CrossEncoderState := .unavailable
  /-- the `except` inside `_calculate_fuzz_score` fires -/
  fuzzFails : Bool := false
  /-- the `except` inside `_calculate_levenshtein_score` fires -/
  levFails : Bool := false
  deriving Repr, DecidableEq, Inhabited

/-- Steps 2-5 of `_calculate_comprehensive_score`, reached only when the
CrossEncoder step did not raise; `ce` is the (already normalized) rerank
sub-score. -/
def fuseRemaining (env : FusionEnv) (input_entity candidate_entity : Entity)
    (bge_score ce : ℚ) : EntityScore :=
  let fz := if env.fuzzFails then 0 else calculate_fuzz_score input_entity candidate_entity
  let lv := if env.levFails then 0 else calculate_levenshtein_score input_entity candidate_entity
  let weighted := bge_score * BGE_WEIGHT + ce * CROSS_ENCODER_WEIGHT
    + fz * FUZZ_WEIGHT + lv * LEVENSHTEIN_WEIGHT
  let type_multiplier := calculate_type_multiplier input_entity candidate_entity
  { bge_score := bge_score, cross_encoder_score := ce, fuzz_score := fz,
    levenshtein_score := lv, final_score := weighted * type_multiplier }

/-- Embeds `_calculate_comprehensive_score`, disambiguation.py lines 259-298. -/
def calculate_comprehensive_score (env : FusionEnv) (input_entity candidate_entity : Entity)
    (bge_score : ℚ) : EntityScore :=
  match env.cross with
  | .raises => { bge_score := bge_score, final_score := bge_score * (1/2) }
  | .unavailable => fuseRemaining env input_entity candidate_entity bge_score 0
  | .ok raw =>
    fuseRemaining env input_entity candidate_entity bge_score (normalize_crossencoder_score raw)

/-! ## Decision engine (`_make_decision`, disambiguation.py 381-425) -/

/-- The threshold chain of `_make_decision` (lines 386-407). -/
def decide_threshold (final_score : ℚ) (force_decision : Bool) : DecisionType :=
  if final_score ≥ HIGH_THRESHOLD then .merge
  else if final_score ≤ LOW_THRESHOLD then .create
  else if force_decision then
    if final_score > (HIGH_THRESHOLD + LOW_THRESHOLD) / 2 then .merge else .create
  else .ambiguous

def make_decision (input_entity candidate_entity : Entity) (score : EntityScore)
    (force_decision : Bool) : DisambiguationResult :=
  let final_score := score.final_score
  let decision : DecisionType := decide_threshold final_score force_decision
  { decision := decision
    match_id := if decision = .merge then candidate_entity.id else none
    match_entity := if decision = .merge then some candidate_entity else none
    scores := score
    confidence := final_score
    reasoning :=
      if final_score ≥ HIGH_THRESHOLD then "高于阈值，建议合并"
      else if final_score ≤ LOW_THRESHOLD then "低于阈值，建议新建"
      else if force_decision then "强制决策" else "歧义区间，需要人工审核" }

/-! ## Vector search (`search_similar_entities`, vectorization.py 557-604)

The index is a `faiss.IndexFlatIP` built WITHOUT L2-normalizing the stored
or query vectors (`build_faiss_index`, lines 460-508): returned scores are
raw inner products, passed through as `float(score)` with no clamping.
The id→entity resolution (store `get_entity` with a name-search fallback,
both of which swallow their own errors) is modelled by `lookup`. -/

structure VectorSearchEnv where
  /-- index loaded / no internal failure (each failure path returns `[]`) -/
  available : Bool := true
  /-- Content of `entity_id_mapping` together with the stored vectors -/
  entries : List (String × List ℚ) := []
  /-- Oracle for `db_manager.get_entity` + name-search fallback, `None` dropped -/
  lookup : String → Option Entity := fun _ => none
  /-- Oracle for `encode_entity` -/
  embedVec : Entity → List ℚ := fun _ => []

def dot (u v : List ℚ) : ℚ := (List.zipWith (fun a b => a * b) u v).sum

/-- Embeds `faiss_index.search` on an `IndexFlatIP`: the `k` stored vectors of
largest inner product with the query, scores descending. -/
def faiss_search (entries : List (String × List ℚ)) (q : List ℚ) (k : ℕ) :
    List (String × ℚ) :=
  (List.insertionSort (fun a b => a.2 ≥ b.2)
    (entries.map fun p => (p.1, dot q p.2))).take k

def search_similar_entities (env : VectorSearchEnv) (query_entity : Entity) (k : ℕ) :
    List (Entity × ℚ) :=
  if !env.available then []
  else
    (faiss_search env.entries (env.embedVec query_entity) k).filterMap fun p =>
      (env.lookup p.1).map fun e => (e, p.2)

/-! ## Smart search (`_smart_search_similar_entities`, disambiguation.py 168-224)

The two calls into the vectorization service pass `db_key=`, a keyword the
service in src does not accept, so the call itself can raise (and any
store error such as the unknown-db-key `ValueError` of
`DatabaseManager.get_service` raises inside the `try`); the
per-call success is modelled by the `primaryCallOk` / `fallbackCallOk`
flags (the multi-backend adapter this call expects is not part of src).
The type-scoped cosine similarity is computed over real-valued numpy
vectors; its value is supplied by the `sim` oracle while the `is not
None` checks on the two `get_entity_vector` results keep their own
flags. -/

structure SmartSearchEnv where
  vector : VectorSearchEnv := {}
  primaryCallOk : Bool := true
  fallbackCallOk : Bool := true
  /-- Outcome of `db_manager.get_entities_by_type` (may raise, e.g. unknown db key) -/
  typeEntities : Except Unit (List Entity) := .ok []
  /-- Whether `get_entity_vector(entity) is not None` -/
  candVecSome : Entity → Bool := fun _ => false
  /-- Whether `get_entity_vector(input_entity) is not None` -/
  inputVecSome : Bool := false
  /-- cosine similarity of the input vector with a candidate's vector -/
  sim : Entity → ℚ := fun _ => 0

/-- The sequential dedup-by-name merge loops (disambiguation.py 199-213):
first occurrence of a name wins, scanning type-scoped results first. -/
def dedupNames : List (Entity × ℚ) → List String → List (Entity × ℚ)
  | [], _ => []
  | (e, s) :: rest, seen =>
    if e.name ∈ seen then dedupNames rest seen
    else (e, s) :: dedupNames rest (e.name :: seen)

def smart_search (env : SmartSearchEnv) (input_entity : Entity) (top_k : ℕ) :
    Except Unit (List (Entity × ℚ)) :=
  -- the `except` at lines 221-224: degrade to a plain global search,
  -- which may itself raise (propagating to the caller)
  let degraded : Except Unit (List (Entity × ℚ)) :=
    if env.fallbackCallOk then .ok (search_similar_entities env.vector input_entity top_k)
    else .error ()
  if !env.primaryCallOk then degraded
  else
    let vector_similar_entities := search_similar_entities env.vector input_entity (top_k * 2)
    if optStrTruthy input_entity.type then
      match env.typeEntities with
      | .error _ => degraded
      | .ok type_entities =>
        if type_entities.isEmpty then .ok (vector_similar_entities.take top_k)
        else
          let type_similar_entities := type_entities.filterMap fun e =>
            if env.candVecSome e then
              if env.inputVecSome then
                if env.sim e > 1/10 then some (e, env.sim e) else none
              else none
            else none
          let sorted := List.insertionSort (fun a b => a.2 ≥ b.2) type_similar_entities
          .ok ((dedupNames (sorted ++ vector_similar_entities) []).take top_k)
    else .ok (vector_similar_entities.take top_k)

/-! ## Resolution entry point (`auto_decide`, disambiguation.py 120-166)

`_save_history` (lines 465-481) is called on the two normal return paths
and swallows its own store errors; the second component of the result
counts how many times it is invoked.  The outer `except` at lines 158-166
returns a degraded result WITHOUT calling `_save_history`. -/

structure AutoEnv where
  search : SmartSearchEnv := {}
  fusion : FusionEnv := {}

/-- Scoring and stable descending sort of the candidate pool
(disambiguation.py lines 138-149); Python's `list.sort` is stable, so the
head is the first-retrieved candidate of maximal `final_score`. -/
def rank_candidates (fenv : FusionEnv) (input_entity : Entity)
    (similar_entities : List (Entity × ℚ)) : List (Entity × EntityScore) :=
  List.insertionSort (fun a b => a.2.final_score ≥ b.2.final_score)
    (similar_entities.map fun p => (p.1, calculate_comprehensive_score fenv input_entity p.1 p.2))

/-- Result of the empty-candidate path (lines 126-135). -/
def no_candidates_result : DisambiguationResult :=
  { decision := .create, scores := {}, confidence := 1, reasoning := "没有找到相似实体，建议新建" }

/-- Result of the outer `except` path (lines 158-166). -/
def error_result : DisambiguationResult :=
  { decision := .create, scores := {}, confidence := 0, reasoning := "处理失败" }

/-- The `try` body of `auto_decide`. -/
def auto_decide_try (env : AutoEnv) (input_entity : Entity) (force_decision : Bool) :
    Except Unit (DisambiguationResult × ℕ) := do
  let similar_entities ← smart_search env.search input_entity FAISS_TOP_K
  match similar_entities with
  | [] => pure (no_candidates_result, 1)
  | r :: rs =>
    let ranked := rank_candidates env.fusion input_entity (r :: rs)
    let best := ranked.headI
    pure (make_decision input_entity best.1 best.2 force_decision, 1)

/-- Embeds `auto_decide`; the returned number is how many history records the
request appended. -/
def auto_decide (env : AutoEnv) (input_entity : Entity) (force_decision : Bool) :
    DisambiguationResult × ℕ :=
  match auto_decide_try env input_entity force_decision with
  | .ok r => r
  | .error _ => (error_result, 0)

/-! ## Backend registry (database_factory.py)

`DatabaseManager` keeps `neo4j_services`, a Python dict (insertion
ordered; re-assigning an existing key keeps its position), modelled by an
association list with in-place update.  `init_services` (lines 21-78)
mutates that dict in place — it never clears it — and
`refresh_nacos_config` (lines 153-170) first `close()`s every live
handle, then re-runs `init_services`, catching any raise as `False`. -/

structure BackendHandle where
  /-- construction generation, to tell rebuilt handles from old ones -/
  gen : ℕ := 0
  /-- set once `close()` has been called on the underlying driver -/
  closed : Bool := false
  deriving Repr, DecidableEq, Inhabited

structure DBManager where
  services : List (String × BackendHandle) := []
  default_key : String := "default"
  deriving Repr, DecidableEq, Inhabited

structure InitEnv where
  /-- SQLite history service import/initialization succeeds -/
  historyOk : Bool := true
  /-- Whether `from .neo4j_database import Neo4jDatabaseService` succeeds -/
  importOk : Bool := true
  /-- configured backends in order, with each one's construction outcome -/
  configs : List (String × Bool) := []
  /-- construction outcome of the single-database fallback (lines 59-72) -/
  fallbackOk : Bool := true
  /-- generation tag stamped on handles built by this run -/
  newGen : ℕ := 1
  deriving Repr, DecidableEq, Inhabited

/-- Python dict assignment `d[k] = v`: replace in place or append. -/
def upsert (k : String) (v : BackendHandle) :
    List (String × BackendHandle) → List (String × BackendHandle)
  | [] => [(k, v)]
  | (k', v') :: rest => if k' = k then (k, v) :: rest else (k', v') :: upsert k v rest

/-- Lines 74-76: `self.default_key = created[0] if 'default' not in created
else 'default'`, guarded by `if created:`. -/
def update_default (old : String) : List String → String
  | [] => old
  | c :: cs => if "default" ∈ c :: cs then "default" else c

/-- Embeds `init_services` (database_factory.py lines 21-78) as a state
transformer; the Bool is `False` when the body raised (the state is
whatever had been mutated up to that point). -/
def init_services (st : DBManager) (env : InitEnv) : DBManager × Bool :=
  if !env.historyOk then (st, false)
  else if !env.importOk then (st, false)
  else
    let step := env.configs.foldl
      (fun acc p =>
        if p.2 then (upsert p.1 { gen := env.newGen } acc.1, acc.2 ++ [p.1]) else acc)
      (st.services, ([] : List String))
    let services := step.1
    let created := step.2
    if services.isEmpty then
      if env.fallbackOk then
        ({ services := upsert st.default_key { gen := env.newGen } services
           default_key := update_default st.default_key (created ++ [st.default_key]) }, true)
      else ({ st with services := services }, false)
    else
      ({ services := services, default_key := update_default st.default_key created }, true)

structure RefreshEnv where
  /-- Result of `nacos_config_service.is_available()` -/
  nacosAvailable : Bool := true
  init : InitEnv := {}
  deriving Repr, DecidableEq, Inhabited

/-- Embeds `DatabaseManager.close` (lines 253-259): closes every handle, leaving
the mapping's keys in place. -/
def close_all (l : List (String × BackendHandle)) : List (String × BackendHandle) :=
  l.map fun p => (p.1, { p.2 with closed := true })

/-- Embeds `refresh_nacos_config`, database_factory.py lines 153-170. -/
def refresh_nacos_config (st : DBManager) (env : RefreshEnv) : DBManager × Bool :=
  if !env.nacosAvailable then (st, false)
  else
    let st1 : DBManager := { st with services := close_all st.services }
    init_services st1 env.init

/-- Embeds `get_available_database_keys` / `list_databases`. -/
def list_keys (st : DBManager) : List String := st.services.map Prod.fst

/-! ## Concrete environments used to instantiate the theorems below -/

/-- An entity as resolved from a stored id (two distinct stored ids can
resolve to entities with the same name). -/
def storedEntity (s : String) : Entity := { id := some s, name := "X" }

/-- Backend whose index holds two vectors whose ids resolve to two
same-named entities. -/
def dupNamesVectorEnv : VectorSearchEnv :=
  { available := true
    entries := [("id1", [1]), ("id2", [1])]
    lookup := fun s => some (storedEntity s)
    embedVec := fun _ => [1] }

def dupNamesSearchEnv : SmartSearchEnv := { vector := dupNamesVectorEnv }

/-- Backend storing one unnormalized vector: its inner product with the
query is `4`. -/
def outOfRangeVectorEnv : VectorSearchEnv :=
  { available := true
    entries := [("e1", [2])]
    lookup := fun s => some (storedEntity s)
    embedVec := fun _ => [2] }

/-- Both vectorization calls of `_smart_search_similar_entities` raise
(in src both pass the unsupported `db_key=` keyword). -/
def failedRetrievalAutoEnv : AutoEnv :=
  { search := { primaryCallOk := false, fallbackCallOk := false } }

/-- Entity store down at request time: `get_entities_by_type` and the
id lookups degrade to empty/None inside the store layer. -/
def storeDownAutoEnv : AutoEnv :=
  { search := { vector := { available := true, entries := [("id1", [1])],
                            lookup := fun _ => none, embedVec := fun _ => [1] }
                typeEntities := .ok [] } }

/-- One-candidate backend for exercising the decision engine end to end;
the scorer returns a large raw value (normalized to 1), the two string
scorers fail internally (sub-scores 0). -/
def oneCandidateAutoEnv : AutoEnv :=
  { search := { vector := { available := true, entries := [("w1", [1])],
                            lookup := fun s => some (storedEntity s),
                            embedVec := fun _ => [1] } }
    fusion := { cross := .ok (77/10), fuzzFails := true, levFails := true } }

/-- Merge-path retrieval environment: one type-scoped candidate, global
vector search degraded to empty. -/
def typeScopedSearchEnv : SmartSearchEnv :=
  { vector := { available := false }
    typeEntities := .ok [storedEntity "t1"]
    candVecSome := fun _ => true
    inputVecSome := true
    sim := fun _ => 1 }

/-- Registry holding one live backend before a refresh. -/
def prevRegistry : DBManager := { services := [("a", { gen := 0 })], default_key := "a" }

/-- A refresh whose freshly pushed config is entirely unreachable: the
single configured backend fails to construct. -/
def badPushRefreshEnv : RefreshEnv :=
  { nacosAvailable := true, init := { configs := [("b", false)], newGen := 1 } }

/-! # Helper lemmas -/

/-! ### Python `max` on score lists -/

theorem foldl_max_init_le (xs : List ℚ) (a : ℚ) : a ≤ xs.foldl max a := by
  induction xs generalizing a with
  | nil => simp
  | cons x xs ih => exact le_trans (le_max_left a x) (ih (max a x))

theorem foldl_max_mem_le (xs : List ℚ) (a b : ℚ) (h : b ∈ xs) : b ≤ xs.foldl max a := by
  induction xs generalizing a with
  | nil => simp at h
  | cons x xs ih =>
    rcases List.mem_cons.mp h with rfl | h
    · exact le_trans (le_max_right a b) (foldl_max_init_le xs (max a b))
    · exact ih (max a x) h

theorem foldl_max_cases (xs : List ℚ) (a : ℚ) : xs.foldl max a = a ∨ xs.foldl max a ∈ xs := by
  induction xs generalizing a with
  | nil => simp
  | cons x xs ih =>
    rcases ih (max a x) with h | h
    · rcases max_cases a x with ⟨hm, _⟩ | ⟨hm, _⟩
      · left; simpa [List.foldl, hm] using h
      · right; simp only [List.foldl] at h ⊢; rw [h, hm]; exact List.mem_cons_self x xs
    · right; exact List.mem_cons_of_mem x h

theorem le_maxOrZero (l : List ℚ) (x : ℚ) (h : x ∈ l) : x ≤ maxOrZero l := by
  match l with
  | [] => simp at h
  | y :: ys =>
    rcases List.mem_cons.mp h with rfl | h
    · exact foldl_max_init_le ys x
    · exact foldl_max_mem_le ys y x h

theorem maxOrZero_mem (l : List ℚ) (h : l ≠ []) : maxOrZero l ∈ l := by
  match l with
  | y :: ys =>
    rcases foldl_max_cases ys y with h1 | h1
    · rw [maxOrZero, h1]; exact List.mem_cons_self y ys
    · exact List.mem_cons_of_mem y h1

/-- Two lists with the same members (and hence the same emptiness) have
the same Python `max(... ) if ... else 0.0`. -/
theorem maxOrZero_congr (l₁ l₂ : List ℚ) (h : ∀ x, x ∈ l₁ ↔ x ∈ l₂) :
    maxOrZero l₁ = maxOrZero l₂ := by
  rcases eq_or_ne l₁ [] with rfl | h1
  · have : l₂ = [] := by
      cases l₂ with
      | nil => rfl
      | cons y ys => exact absurd ((h y).mpr (List.mem_cons_self y ys)) (by simp)
    rw [this]
  · have h2 : l₂ ≠ [] := by
      cases l₁ with
      | nil => exact absurd rfl h1
      | cons y ys =>
        intro hcon
        exact absurd ((h y).mp (List.mem_cons_self y ys)) (by simp [hcon])
    exact le_antisymm
      (le_maxOrZero l₂ _ ((h _).mp (maxOrZero_mem l₁ h1)))
      (le_maxOrZero l₁ _ ((h _).mpr (maxOrZero_mem l₂ h2)))

theorem maxOrZero_bounds (l : List ℚ) (h : ∀ x ∈ l, 0 ≤ x ∧ x ≤ 1) :
    0 ≤ maxOrZero l ∧ maxOrZero l ≤ 1 := by
  rcases eq_or_ne l [] with rfl | h1
  · simp [maxOrZero]
  · exact h _ (maxOrZero_mem l h1)

/-! ### Edit distance and longest common subsequence -/

theorem lev_nil_left (b : List Char) : lev [] b = b.length := by simp [lev]

theorem lev_nil_right (a : List Char) : lev a [] = a.length := by
  cases a <;> simp [lev]

theorem lev_cons_self (x : Char) (xs ys : List Char) :
    lev (x :: xs) (x :: ys) = lev xs ys := by
  simp [lev]

theorem lcsLen_cons_self (x : Char) (xs ys : List Char) :
    lcsLen (x :: xs) (x :: ys) = lcsLen xs ys + 1 := by
  simp [lcsLen]

theorem lev_symm_bounded :
    ∀ (n : ℕ) (a b : List Char), a.length + b.length ≤ n → lev a b = lev b a := by
  intro n
  induction n with
  | zero =>
    intro a b h
    have ha : a = [] := by cases a <;> simp_all
    have hb : b = [] := by cases b <;> simp_all
    subst ha; subst hb; rfl
  | succ n ih =>
    intro a b h
    match a, b with
    | [], b => rw [lev_nil_left, lev_nil_right]
    | a :: as, [] => rw [lev_nil_left, lev_nil_right]
    | x :: xs, y :: ys =>
      simp only [List.length_cons] at h
      by_cases hxy : x = y
      · subst hxy
        rw [lev_cons_self, lev_cons_self]
        exact ih xs ys (by omega)
      · simp only [lev, if_neg hxy, if_neg (Ne.symm hxy)]
        rw [ih (x :: xs) ys (by simp; omega), ih xs (y :: ys) (by simp; omega),
          ih xs ys (by omega)]
        omega

theorem lev_symm (a b : List Char) : lev a b = lev b a :=
  lev_symm_bounded (a.length + b.length) a b le_rfl

theorem lev_le_max_bounded :
    ∀ (n : ℕ) (a b : List Char), a.length + b.length ≤ n →
      lev a b ≤ max a.length b.length := by
  intro n
  induction n with
  | zero =>
    intro a b h
    have ha : a = [] := by cases a <;> simp_all
    have hb : b = [] := by cases b <;> simp_all
    subst ha; subst hb; simp [lev]
  | succ n ih =>
    intro a b h
    match a, b with
    | [], b => simp [lev_nil_left]
    | a :: as, [] => simp [lev_nil_right]
    | x :: xs, y :: ys =>
      simp only [List.length_cons] at h ⊢
      by_cases hxy : x = y
      · subst hxy
        rw [lev_cons_self]
        have := ih xs ys (by omega)
        omega
      · simp only [lev, if_neg hxy]
        have := ih xs ys (by omega)
        omega

theorem lev_le_max (a b : List Char) : lev a b ≤ max a.length b.length :=
  lev_le_max_bounded (a.length + b.length) a b le_rfl

theorem lcsLen_symm_bounded :
    ∀ (n : ℕ) (a b : List Char), a.length + b.length ≤ n → lcsLen a b = lcsLen b a := by
  intro n
  induction n with
  | zero =>
    intro a b h
    have ha : a = [] := by cases a <;> simp_all
    have hb : b = [] := by cases b <;> simp_all
    subst ha; subst hb; rfl
  | succ n ih =>
    intro a b h
    match a, b with
    | [], b => cases b <;> simp [lcsLen]
    | a :: as, [] => simp [lcsLen]
    | x :: xs, y :: ys =>
      simp only [List.length_cons] at h
      by_cases hxy : x = y
      · subst hxy
        rw [lcsLen_cons_self, lcsLen_cons_self, ih xs ys (by omega)]
      · simp only [lcsLen, if_neg hxy, if_neg (Ne.symm hxy)]
        rw [ih (x :: xs) ys (by simp; omega), ih xs (y :: ys) (by simp; omega)]
        omega

theorem lcsLen_symm (a b : List Char) : lcsLen a b = lcsLen b a :=
  lcsLen_symm_bounded (a.length + b.length) a b le_rfl

theorem lcsLen_le_left_bounded :
    ∀ (n : ℕ) (a b : List Char), a.length + b.length ≤ n → lcsLen a b ≤ a.length := by
  intro n
  induction n with
  | zero =>
    intro a b h
    have ha : a = [] := by cases a <;> simp_all
    have hb : b = [] := by cases b <;> simp_all
    subst ha; subst hb; simp [lcsLen]
  | succ n ih =>
    intro a b h
    match a, b with
    | [], b => simp [lcsLen]
    | a :: as, [] => simp [lcsLen]
    | x :: xs, y :: ys =>
      simp only [List.length_cons] at h ⊢
      by_cases hxy : x = y
      · subst hxy
        rw [lcsLen_cons_self]
        have := ih xs ys (by omega)
        omega
      · simp only [lcsLen, if_neg hxy]
        have h1 := ih (x :: xs) ys (by simp; omega)
        have h2 := ih xs (y :: ys) (by simp; omega)
        simp only [List.length_cons] at h1
        omega

theorem lcsLen_le_left (a b : List Char) : lcsLen a b ≤ a.length :=
  lcsLen_le_left_bounded (a.length + b.length) a b le_rfl

theorem lcsLen_le_right (a b : List Char) : lcsLen a b ≤ b.length := by
  rw [lcsLen_symm]; exact lcsLen_le_left b a

/-! ### Symmetry and bounds of the pair metrics -/

theorem fuzzRatio_symm (a b : String) : fuzzRatio a b = fuzzRatio b a := by
  unfold fuzzRatio
  rw [lcsLen_symm]
  rcases Nat.eq_zero_or_pos (a.toList.length + b.toList.length) with h | h
  · rw [if_pos h, if_pos (by omega)]
  · rw [if_neg (by omega), if_neg (by omega)]
    ring_nf

theorem token_sort_ratio_symm (a b : String) :
    token_sort_ratio a b = token_sort_ratio b a := by
  unfold token_sort_ratio
  exact fuzzRatio_symm _ _

theorem levPairScore_symm (a b : String) : levPairScore a b = levPairScore b a := by
  unfold levPairScore
  rw [lev_symm, Nat.max_comm]

theorem fuzzRatio_nonneg (a b : String) : 0 ≤ fuzzRatio a b := by
  unfold fuzzRatio
  rcases Nat.eq_zero_or_pos (a.toList.length + b.toList.length) with h | h
  · rw [if_pos h]; norm_num
  · rw [if_neg (by omega)]
    have hd : (0 : ℚ) < (a.toList.length : ℚ) + (b.toList.length : ℚ) := by
      have := (Nat.cast_pos (α := ℚ)).mpr h
      push_cast at this ⊢
      linarith
    positivity

theorem fuzzRatio_le_100 (a b : String) : fuzzRatio a b ≤ 100 := by
  unfold fuzzRatio
  rcases Nat.eq_zero_or_pos (a.toList.length + b.toList.length) with h | h
  · rw [if_pos h]
  · rw [if_neg (by omega)]
    have hd : (0 : ℚ) < (a.toList.length : ℚ) + (b.toList.length : ℚ) := by
      have := (Nat.cast_pos (α := ℚ)).mpr h
      push_cast at this ⊢
      linarith
    rw [div_le_iff₀ hd]
    have h1 : lcsLen a.toList b.toList ≤ a.toList.length := lcsLen_le_left _ _
    have h2 : lcsLen a.toList b.toList ≤ b.toList.length := lcsLen_le_right _ _
    have h1q : (lcsLen a.toList b.toList : ℚ) ≤ (a.toList.length : ℚ) := by
      exact_mod_cast h1
    have h2q : (lcsLen a.toList b.toList : ℚ) ≤ (b.toList.length : ℚ) := by
      exact_mod_cast h2
    nlinarith

theorem levPairScore_bounds (a b : String) :
    0 ≤ levPairScore a b ∧ levPairScore a b ≤ 1 := by
  unfold levPairScore
  rcases Nat.eq_zero_or_pos (max a.toList.length b.toList.length) with h | h
  · rw [if_neg (by omega)]; norm_num
  · rw [if_pos h]
    have hm : (0 : ℚ) < ((max a.toList.length b.toList.length : ℕ) : ℚ) := by
      exact_mod_cast h
    have hle : ((lev a.toList b.toList : ℕ) : ℚ)
        ≤ ((max a.toList.length b.toList.length : ℕ) : ℚ) := by
      exact_mod_cast lev_le_max a.toList b.toList
    have hnn : (0 : ℚ) ≤ ((lev a.toList b.toList : ℕ) : ℚ) := by positivity
    have hdiv1 : ((lev a.toList b.toList : ℕ) : ℚ)
        / ((max a.toList.length b.toList.length : ℕ) : ℚ) ≤ 1 :=
      (div_le_one hm).mpr hle
    have hdiv0 : 0 ≤ ((lev a.toList b.toList : ℕ) : ℚ)
        / ((max a.toList.length b.toList.length : ℕ) : ℚ) :=
      div_nonneg hnn (le_of_lt hm)
    constructor <;> linarith

theorem fuzzPair_bounds (a b : String) :
    0 ≤ token_sort_ratio a b / 100 ∧ token_sort_ratio a b / 100 ≤ 1 := by
  unfold token_sort_ratio
  constructor
  · have := fuzzRatio_nonneg (sortTokens a) (sortTokens b)
    linarith
  · have := fuzzRatio_le_100 (sortTokens a) (sortTokens b)
    linarith

/-! ### The alias-pairing maximum -/

theorem pairScores_mem_iff (f : String → String → ℚ) (hf : ∀ x y, f x y = f y x)
    (a b : Entity) (v : ℚ) : v ∈ pairScores f a b ↔ v ∈ pairScores f b a := by
  have key : ∀ (p q : Entity), v ∈ pairScores f p q → v ∈ pairScores f q p := by
    intro p q h
    simp only [pairScores, List.mem_append, List.mem_flatMap, List.mem_map] at h ⊢
    rcases h with (⟨ia, hia, ca, hca, rfl⟩ | ⟨ia, hia, rfl⟩) | ⟨ca, hca, rfl⟩
    · exact Or.inl (Or.inl ⟨ca, hca, ia, hia, (hf ia ca).symm⟩)
    · exact Or.inr ⟨ia, hia, (hf ia q.name).symm⟩
    · exact Or.inl (Or.inr ⟨ca, hca, (hf p.name ca).symm⟩)
  exact ⟨key a b, key b a⟩

theorem maxPairScore_symm (f : String → String → ℚ) (hf : ∀ x y, f x y = f y x)
    (a b : Entity) : maxPairScore f a b = maxPairScore f b a := by
  unfold maxPairScore
  rw [hf a.name b.name, maxOrZero_congr _ _ (pairScores_mem_iff f hf a b)]

theorem maxPairScore_bounds (f : String → String → ℚ)
    (hf : ∀ x y, 0 ≤ f x y ∧ f x y ≤ 1) (a b : Entity) :
    0 ≤ maxPairScore f a b ∧ maxPairScore f a b ≤ 1 := by
  unfold maxPairScore
  have hmem : ∀ v ∈ pairScores f a b, 0 ≤ v ∧ v ≤ 1 := by
    intro v hv
    simp only [pairScores, List.mem_append, List.mem_flatMap, List.mem_map] at hv
    rcases hv with (⟨ia, _, ca, _, rfl⟩ | ⟨ia, _, rfl⟩) | ⟨ca, _, rfl⟩ <;> exact hf _ _
  have h1 := hf a.name b.name
  have h2 := maxOrZero_bounds _ hmem
  constructor
  · exact le_trans h1.1 (le_max_left _ _)
  · exact max_le h1.2 h2.2

theorem calculate_fuzz_score_symm (a b : Entity) :
    calculate_fuzz_score a b = calculate_fuzz_score b a :=
  maxPairScore_symm _ (fun x y => by rw [token_sort_ratio_symm]) a b

theorem calculate_levenshtein_score_symm (a b : Entity) :
    calculate_levenshtein_score a b = calculate_levenshtein_score b a :=
  maxPairScore_symm _ levPairScore_symm a b

theorem calculate_fuzz_score_bounds (a b : Entity) :
    0 ≤ calculate_fuzz_score a b ∧ calculate_fuzz_score a b ≤ 1 :=
  maxPairScore_bounds _ (fun x y => fuzzPair_bounds x y) a b

theorem calculate_levenshtein_score_bounds (a b : Entity) :
    0 ≤ calculate_levenshtein_score a b ∧ calculate_levenshtein_score a b ≤ 1 :=
  maxPairScore_bounds _ levPairScore_bounds a b

theorem normalize_crossencoder_score_bounds (s : ℚ) :
    0 ≤ normalize_crossencoder_score s ∧ normalize_crossencoder_score s ≤ 1 := by
  unfold normalize_crossencoder_score
  constructor
  · exact le_max_left 0 _
  · exact max_le (by norm_num) (min_le_left 1 _)

/-! ### Retrieval helper lemmas -/

theorem dedupNames_sound (l : List (Entity × ℚ)) (seen : List String) :
    (dedupNames l seen).Pairwise (fun p q => p.1.name ≠ q.1.name)
      ∧ ∀ p ∈ dedupNames l seen, p.1.name ∉ seen := by
  induction l generalizing seen with
  | nil => simp [dedupNames]
  | cons hd tl ih =>
    obtain ⟨e, s⟩ := hd
    by_cases hmem : e.name ∈ seen
    · rw [dedupNames, if_pos hmem]
      exact ih seen
    · rw [dedupNames, if_neg hmem]
      obtain ⟨hpw, hseen⟩ := ih (e.name :: seen)
      refine ⟨List.Pairwise.cons ?_ hpw, ?_⟩
      · intro q hq
        have := hseen q hq
        simp only [List.mem_cons] at this
        tauto
      · intro p hp
        rcases List.mem_cons.mp hp with rfl | hp
        · exact hmem
        · have := hseen p hp
          simp only [List.mem_cons] at this
          tauto

theorem search_similar_entities_length (env : VectorSearchEnv) (q : Entity) (k : ℕ) :
    (search_similar_entities env q k).length ≤ k := by
  unfold search_similar_entities
  split
  · simp
  · calc (List.filterMap _ (faiss_search env.entries (env.embedVec q) k)).length
        ≤ (faiss_search env.entries (env.embedVec q) k).length :=
          List.length_filterMap_le _ _
      _ ≤ k := by unfold faiss_search; exact List.length_take_le _ _

/-- Registry helper: a refresh run in which every configured backend fails
to construct leaves the (key, handle) list and the created-list untouched. -/
theorem init_foldl_all_failed (configs : List (String × Bool))
    (hc : ∀ p ∈ configs, p.2 = false)
    (acc : List (String × BackendHandle) × List String) (g : ℕ) :
    configs.foldl
      (fun acc p => if p.2 then (upsert p.1 { gen := g } acc.1, acc.2 ++ [p.1]) else acc)
      acc = acc := by
  induction configs generalizing acc with
  | nil => rfl
  | cons hd tl ih =>
    have h1 : hd.2 = false := hc hd (List.mem_cons_self hd tl)
    rw [List.foldl_cons, if_neg (by simp [h1])]
    exact ih (fun p hp => hc p (List.mem_cons_of_mem hd hp)) acc

theorem close_all_keys (l : List (String × BackendHandle)) :
    (close_all l).map Prod.fst = l.map Prod.fst := by
  unfold close_all
  rw [List.map_map]
  rfl

/-! ### Decision-engine helper lemmas -/

theorem low_lt_high : LOW_THRESHOLD < HIGH_THRESHOLD := by
  unfold LOW_THRESHOLD HIGH_THRESHOLD; norm_num

theorem decide_threshold_spec (s : ℚ) (force : Bool) :
    (HIGH_THRESHOLD ≤ s → decide_threshold s force = .merge)
      ∧ (s ≤ LOW_THRESHOLD → decide_threshold s force = .create)
      ∧ (LOW_THRESHOLD < s → s < HIGH_THRESHOLD →
          (force = false → decide_threshold s force = .ambiguous)
            ∧ (force = true →
                ((HIGH_THRESHOLD + LOW_THRESHOLD) / 2 < s → decide_threshold s force = .merge)
                  ∧ (s ≤ (HIGH_THRESHOLD + LOW_THRESHOLD) / 2 →
                      decide_threshold s force = .create))) := by
  unfold decide_threshold
  refine ⟨fun h1 => by rw [if_pos h1], fun h2 => ?_, fun h3 h4 => ⟨fun hf => ?_, fun hf => ?_⟩⟩
  · have : ¬ s ≥ HIGH_THRESHOLD := by
      have := low_lt_high; intro hcon; exact absurd (le_trans hcon.le h2) (not_le.mpr this)
    rw [if_neg this, if_pos h2]
  · rw [if_neg (not_le.mpr h4), if_neg (not_le.mpr h3), hf]
    simp
  · subst hf
    rw [if_neg (not_le.mpr h4), if_neg (not_le.mpr h3), if_pos rfl]
    exact ⟨fun hm => by rw [if_pos hm], fun hm => by rw [if_neg (not_lt.mpr hm)]⟩

theorem make_decision_decision (i c : Entity) (score : EntityScore) (force : Bool) :
    (make_decision i c score force).decision = decide_threshold score.final_score force := rfl

theorem make_decision_match_id (i c : Entity) (score : EntityScore) (force : Bool) :
    (make_decision i c score force).match_id
      = if decide_threshold score.final_score force = .merge then c.id else none := rfl

theorem make_decision_match_entity (i c : Entity) (score : EntityScore) (force : Bool) :
    (make_decision i c score force).match_entity
      = if decide_threshold score.final_score force = .merge then some c else none := rfl

/-! # Claim theorems -/

/-- C9: for all entities `a`, `b`, the fuzzy score is symmetric
(`fuzzy_score(a,b) == fuzzy_score(b,a)`) and the edit score is symmetric
(`edit_score(a,b) == edit_score(b,a)`), each being the maximum over all
name/alias pairings between the two entities. -/
theorem C9_string_scores_symmetric (a b : Entity) :
    calculate_fuzz_score a b = calculate_fuzz_score b a
      ∧ calculate_levenshtein_score a b = calculate_levenshtein_score b a :=
  ⟨calculate_fuzz_score_symm a b, calculate_levenshtein_score_symm a b⟩

/-- C4 (code bug): the Entity model of src/models/entity.py declares
`type: EntityType = Field(...)` — a REQUIRED field over a CLOSED
enumeration of eight Chinese tokens.  The claim (and the repository's own
tests `test_generalized_type.py`, `test_optional_type.py`,
`test_type_matching_simple.py`, which send `type="custom_type"`,
`type="技术"`, empty and absent types and expect acceptance) requires an
open optional string; the model rejects those inputs.  Moreover
`_calculate_type_multiplier` gives an absent type and an empty-string
type the SAME multiplier semantics (Python falsiness), not different
ones. -/
theorem C4_type_field_is_closed_required_enum :
    entity_type_field_valid (some "custom_type") = false
      ∧ entity_type_field_valid none = false
      ∧ entity_type_field_valid (some "技术") = false
      ∧ entity_type_field_valid (some "疾病") = true
      ∧ calculate_type_multiplier { name := "a", type := none }
          { name := "b", type := some "疾病" }
        = calculate_type_multiplier { name := "a", type := some "" }
          { name := "b", type := some "疾病" } := by
  exact ⟨by decide, by decide, by decide, by decide, by decide⟩

/-- C10 (counterexample): `_make_decision` can return a Merge decision
whose `match_id` is `None`: the winning candidate's `id` field is
`Optional` and is copied verbatim, so a stored candidate without an id
yields `decision = merge` with `match_id = None`, refuting
"match_id is non-None if and only if the decision is Merge". -/
theorem C10_counterexample_merge_without_id :
    (make_decision { name := "q" } { name := "c", id := none }
        { final_score := 9/10 } false).decision = DecisionType.merge
      ∧ (make_decision { name := "q" } { name := "c", id := none }
          { final_score := 9/10 } false).match_id = none := by
  have hd : decide_threshold (9/10 : ℚ) false = .merge := by
    unfold decide_threshold HIGH_THRESHOLD
    rw [if_pos (by norm_num)]
  constructor
  · rw [make_decision_decision]; exact hd
  · rw [make_decision_match_id]
    simp [hd]

/-- C10 (amended): in every result of the resolution path, `match_entity`
is non-None iff the decision is Merge, in which case `match_id` equals the
winning candidate's (possibly absent) id and `match_entity` equals the
candidate; for non-Merge decisions — including the no-candidate and
internal-failure results — both fields are None; and a non-None
`match_id` implies Merge (the converse can fail when the candidate has no
id). -/
theorem C10_amended_match_fields (input cand : Entity) (score : EntityScore) (force : Bool) :
    ((make_decision input cand score force).match_entity ≠ none
        ↔ (make_decision input cand score force).decision = .merge)
      ∧ ((make_decision input cand score force).decision = .merge →
          (make_decision input cand score force).match_id = cand.id
            ∧ (make_decision input cand score force).match_entity = some cand)
      ∧ ((make_decision input cand score force).decision ≠ .merge →
          (make_decision input cand score force).match_id = none
            ∧ (make_decision input cand score force).match_entity = none)
      ∧ ((make_decision input cand score force).match_id ≠ none →
          (make_decision input cand score force).decision = .merge)
      ∧ no_candidates_result.match_id = none ∧ no_candidates_result.match_entity = none
      ∧ error_result.match_id = none ∧ error_result.match_entity = none := by
  rw [make_decision_decision, make_decision_match_id, make_decision_match_entity]
  by_cases hd : decide_threshold score.final_score force = .merge <;>
    simp [hd, no_candidates_result, error_result]

/-- C8 (counterexample): retrieval does NOT keep the embedding score in
`[0,1]`: the FAISS index stores raw (unnormalized) vectors and
`search_similar_entities` passes the inner product through unclamped, so a
stored vector `[2]` against query vector `[2]` yields a candidate with
`bge_score = 4`, which fusion copies verbatim into the score vector. -/
theorem C8_counterexample_embedding_score_out_of_range :
    search_similar_entities outOfRangeVectorEnv { name := "q" } 10
        = [(storedEntity "e1", 4)]
      ∧ (calculate_comprehensive_score { cross := .raises } { name := "q" }
          (storedEntity "e1") 4).bge_score = 4
      ∧ ¬ ((4 : ℚ) ≤ 1) := by
  refine ⟨?_, by simp [calculate_comprehensive_score], by norm_num⟩
  norm_num [search_similar_entities, outOfRangeVectorEnv, faiss_search, dot,
    List.insertionSort, List.orderedInsert, List.filterMap_cons, storedEntity]

/-- C8 (amended): of the four sub-scores, the three NORMALIZED ones —
rerank (`cross_encoder_score`), fuzzy (`fuzz_score`) and edit
(`levenshtein_score`) — always lie in `[0,1]`; the embedding score
(`bge_score`) is passed through fusion unchanged and unclamped, so it is
only as bounded as the retrieval similarity that produced it (which the
counterexample shows can leave `[0,1]`). -/
theorem C8_amended_normalized_subscore_ranges (env : FusionEnv) (i c : Entity) (bge : ℚ) :
    (0 ≤ (calculate_comprehensive_score env i c bge).cross_encoder_score
        ∧ (calculate_comprehensive_score env i c bge).cross_encoder_score ≤ 1)
      ∧ (0 ≤ (calculate_comprehensive_score env i c bge).fuzz_score
          ∧ (calculate_comprehensive_score env i c bge).fuzz_score ≤ 1)
      ∧ (0 ≤ (calculate_comprehensive_score env i c bge).levenshtein_score
          ∧ (calculate_comprehensive_score env i c bge).levenshtein_score ≤ 1)
      ∧ (calculate_comprehensive_score env i c bge).bge_score = bge := by
  obtain ⟨cr, ff, lf⟩ := env
  have hfz : ∀ fenv : FusionEnv, ∀ ce : ℚ,
      0 ≤ (fuseRemaining fenv i c bge ce).fuzz_score
        ∧ (fuseRemaining fenv i c bge ce).fuzz_score ≤ 1 := by
    intro fenv ce
    unfold fuseRemaining
    dsimp only
    split
    · norm_num
    · exact calculate_fuzz_score_bounds i c
  have hlv : ∀ fenv : FusionEnv, ∀ ce : ℚ,
      0 ≤ (fuseRemaining fenv i c bge ce).levenshtein_score
        ∧ (fuseRemaining fenv i c bge ce).levenshtein_score ≤ 1 := by
    intro fenv ce
    unfold fuseRemaining
    dsimp only
    split
    · norm_num
    · exact calculate_levenshtein_score_bounds i c
  cases cr with
  | raises =>
    refine ⟨?_, ?_, ?_, ?_⟩ <;> simp [calculate_comprehensive_score]
  | unavailable =>
    refine ⟨?_, hfz _ 0, hlv _ 0, rfl⟩
    simp [calculate_comprehensive_score, fuseRemaining]
  | ok raw =>
    exact ⟨by simpa [calculate_comprehensive_score, fuseRemaining]
        using normalize_crossencoder_score_bounds raw,
      hfz _ _, hlv _ _, rfl⟩

/-- C3 (counterexample): with the pair scorer entirely UNAVAILABLE (the
`CrossEncoder` never loaded, `self.cross_encoder is None`), fusion does
NOT fall back to `embedding_score × 0.5`: the scorer branch is simply
skipped (rerank sub-score 0.0) and the weighted sum of the remaining terms
is used.  Here `bge = 1` and the two string scorers degrade to 0, giving
`final_score = 1·0.4 = 0.4 ≠ 1·0.5`.  (The `×0.5` fallback is the
`except` path, taken when a LOADED scorer's `predict` raises.) -/
theorem C3_counterexample_unavailable_scorer_no_half_fallback :
    ({ cross := .unavailable, fuzzFails := true, levFails := true } : FusionEnv).cross
        = CrossEncoderState.unavailable
      ∧ (calculate_comprehensive_score
          { cross := .unavailable, fuzzFails := true, levFails := true }
          { name := "q" } (storedEntity "e1") 1).final_score = 4/10
      ∧ (4/10 : ℚ) ≠ 1 * (1/2) := by
  refine ⟨rfl, ?_, by norm_num⟩
  norm_num [calculate_comprehensive_score, fuseRemaining, calculate_type_multiplier,
    optStrTruthy, storedEntity, BGE_WEIGHT, CROSS_ENCODER_WEIGHT, FUZZ_WEIGHT,
    LEVENSHTEIN_WEIGHT]

/-- C3 (amended): failures inside the fuzzy / edit sub-score computations
zero only that sub-score while fusion proceeds; when the pair scorer is
UNAVAILABLE the rerank sub-score stays 0 and the final score is the
weighted sum of the remaining terms times the type multiplier (no ×0.5
fallback); the `embedding_score × 0.5` degraded estimate applies exactly
when the comprehensive-score computation RAISES (a loaded scorer's
`predict` failing), and on that path the other three sub-scores are all
left at 0. -/
theorem C3_amended_fusion_failure_modes (env : FusionEnv) (i c : Entity) (bge : ℚ) :
    (env.cross = .unavailable →
        (calculate_comprehensive_score env i c bge).final_score
          = (bge * BGE_WEIGHT
              + (calculate_comprehensive_score env i c bge).fuzz_score * FUZZ_WEIGHT
              + (calculate_comprehensive_score env i c bge).levenshtein_score * LEVENSHTEIN_WEIGHT)
            * calculate_type_multiplier i c)
      ∧ (env.fuzzFails = true → env.cross ≠ .raises →
          (calculate_comprehensive_score env i c bge).fuzz_score = 0
            ∧ (calculate_comprehensive_score env i c bge).levenshtein_score
                = (if env.levFails then 0 else calculate_levenshtein_score i c))
      ∧ (env.levFails = true → env.cross ≠ .raises →
          (calculate_comprehensive_score env i c bge).levenshtein_score = 0
            ∧ (calculate_comprehensive_score env i c bge).fuzz_score
                = (if env.fuzzFails then 0 else calculate_fuzz_score i c))
      ∧ (env.cross = .raises →
          calculate_comprehensive_score env i c bge
            = { bge_score := bge, final_score := bge * (1/2) }) := by
  obtain ⟨cr, ff, lf⟩ := env
  refine ⟨fun hcr => ?_, fun hff hcr => ?_, fun hlf hcr => ?_, fun hcr => ?_⟩
  · cases cr with
    | unavailable =>
      simp only [calculate_comprehensive_score, fuseRemaining]
      ring
    | raises => exact absurd hcr (by simp)
    | ok raw => exact absurd hcr (by simp)
  · cases cr with
    | raises => exact absurd rfl hcr
    | unavailable => subst hff; simp [calculate_comprehensive_score, fuseRemaining]
    | ok raw => subst hff; simp [calculate_comprehensive_score, fuseRemaining]
  · cases cr with
    | raises => exact absurd rfl hcr
    | unavailable => subst hlf; simp [calculate_comprehensive_score, fuseRemaining]
    | ok raw => subst hlf; simp [calculate_comprehensive_score, fuseRemaining]
  · cases cr with
    | raises => rfl
    | unavailable => exact absurd hcr (by simp)
    | ok raw => exact absurd hcr (by simp)

/-- Witness for C3_amended_fusion_failure_modes: the unavailable-scorer
hypothesis holds for a concrete environment and the theorem yields its
final-score decomposition there. -/
theorem C3_amended_fusion_failure_modes_witness :
    ({ cross := .unavailable, fuzzFails := true, levFails := true } : FusionEnv).cross
        = CrossEncoderState.unavailable
      ∧ (calculate_comprehensive_score
            { cross := .unavailable, fuzzFails := true, levFails := true }
            { name := "q" } (storedEntity "e1") 1).final_score
          = (1 * BGE_WEIGHT
              + (calculate_comprehensive_score
                  { cross := .unavailable, fuzzFails := true, levFails := true }
                  { name := "q" } (storedEntity "e1") 1).fuzz_score * FUZZ_WEIGHT
              + (calculate_comprehensive_score
                  { cross := .unavailable, fuzzFails := true, levFails := true }
                  { name := "q" } (storedEntity "e1") 1).levenshtein_score * LEVENSHTEIN_WEIGHT)
            * calculate_type_multiplier { name := "q" } (storedEntity "e1") :=
  ⟨rfl, (C3_amended_fusion_failure_modes _ _ _ _).1 rfl⟩

/-- C1: for every resolution request whose retrieval produced at least
one candidate, the decision on the best-scoring candidate (the head of
the stably score-sorted candidate list, i.e. `candidates[0]`) follows the
threshold table: `final_score ≥ HIGH_THRESHOLD` gives Merge carrying the
candidate's id; `final_score ≤ LOW_THRESHOLD` gives Create; strictly
between the thresholds, `force = false` gives Ambiguous, and
`force = true` gives Merge exactly when
`final_score > (HIGH_THRESHOLD+LOW_THRESHOLD)/2` and Create otherwise. -/
theorem C1_threshold_decision_policy (env : AutoEnv) (input : Entity) (force : Bool)
    (res : List (Entity × ℚ))
    (hres : smart_search env.search input FAISS_TOP_K = .ok res) (hne : res ≠ []) :
    (auto_decide env input force).1
        = make_decision input ((rank_candidates env.fusion input res).headI).1
            ((rank_candidates env.fusion input res).headI).2 force
      ∧ (HIGH_THRESHOLD ≤ ((rank_candidates env.fusion input res).headI).2.final_score →
          (auto_decide env input force).1.decision = .merge
            ∧ (auto_decide env input force).1.match_id
                = ((rank_candidates env.fusion input res).headI).1.id)
      ∧ (((rank_candidates env.fusion input res).headI).2.final_score ≤ LOW_THRESHOLD →
          (auto_decide env input force).1.decision = .create)
      ∧ (LOW_THRESHOLD < ((rank_candidates env.fusion input res).headI).2.final_score →
          ((rank_candidates env.fusion input res).headI).2.final_score < HIGH_THRESHOLD →
            (force = false → (auto_decide env input force).1.decision = .ambiguous)
              ∧ (force = true →
                  ((HIGH_THRESHOLD + LOW_THRESHOLD) / 2
                      < ((rank_candidates env.fusion input res).headI).2.final_score →
                    (auto_decide env input force).1.decision = .merge
                      ∧ (auto_decide env input force).1.match_id
                          = ((rank_candidates env.fusion input res).headI).1.id)
                    ∧ (((rank_candidates env.fusion input res).headI).2.final_score
                          ≤ (HIGH_THRESHOLD + LOW_THRESHOLD) / 2 →
                        (auto_decide env input force).1.decision = .create))) := by
  have hstep : auto_decide env input force
      = (make_decision input ((rank_candidates env.fusion input res).headI).1
          ((rank_candidates env.fusion input res).headI).2 force, 1) := by
    unfold auto_decide auto_decide_try
    rw [hres]
    cases res with
    | nil => exact absurd rfl hne
    | cons r rs => rfl
  have spec := decide_threshold_spec
    (((rank_candidates env.fusion input res).headI).2.final_score) force
  refine ⟨by rw [hstep], fun h => ?_, fun h => ?_,
    fun h3 h4 => ⟨fun hf => ?_, fun hf => ⟨fun hm => ?_, fun hm => ?_⟩⟩⟩
  · simp only [hstep, make_decision_decision, make_decision_match_id, spec.1 h]
    simp
  · simp only [hstep, make_decision_decision, spec.2.1 h]
  · simp only [hstep, make_decision_decision, (spec.2.2 h3 h4).1 hf]
  · simp only [hstep, make_decision_decision, make_decision_match_id,
      ((spec.2.2 h3 h4).2 hf).1 hm]
    simp
  · simp only [hstep, make_decision_decision, ((spec.2.2 h3 h4).2 hf).2 hm]

/-- Witness for C1_threshold_decision_policy: a single-candidate request
whose fused score is 0.7 — strictly inside the ambiguous band
(0.6, 0.72) — with `force = false` is decided Ambiguous. -/
theorem C1_threshold_decision_policy_witness :
    smart_search oneCandidateAutoEnv.search { name := "q" } FAISS_TOP_K
        = .ok [(storedEntity "w1", 1)]
      ∧ ([((storedEntity "w1" : Entity), (1 : ℚ))] ≠ [])
      ∧ LOW_THRESHOLD
          < ((rank_candidates oneCandidateAutoEnv.fusion { name := "q" }
              [(storedEntity "w1", 1)]).headI).2.final_score
      ∧ ((rank_candidates oneCandidateAutoEnv.fusion { name := "q" }
          [(storedEntity "w1", 1)]).headI).2.final_score < HIGH_THRESHOLD
      ∧ (auto_decide oneCandidateAutoEnv { name := "q" } false).1.decision
          = DecisionType.ambiguous := by
  have hres : smart_search oneCandidateAutoEnv.search { name := "q" } FAISS_TOP_K
      = .ok [(storedEntity "w1", 1)] := by
    norm_num [smart_search, oneCandidateAutoEnv, search_similar_entities, faiss_search,
      dot, optStrTruthy, List.insertionSort, List.orderedInsert, List.filterMap_cons,
      storedEntity, FAISS_TOP_K]
  have hbest : ((rank_candidates oneCandidateAutoEnv.fusion { name := "q" }
      [(storedEntity "w1", 1)]).headI).2.final_score = 7/10 := by
    norm_num [rank_candidates, oneCandidateAutoEnv, calculate_comprehensive_score,
      fuseRemaining, normalize_crossencoder_score, calculate_type_multiplier,
      optStrTruthy, storedEntity, List.insertionSort, List.orderedInsert,
      BGE_WEIGHT, CROSS_ENCODER_WEIGHT, FUZZ_WEIGHT, LEVENSHTEIN_WEIGHT]
  have hlo : LOW_THRESHOLD < ((rank_candidates oneCandidateAutoEnv.fusion { name := "q" }
      [(storedEntity "w1", 1)]).headI).2.final_score := by
    rw [hbest]; norm_num [LOW_THRESHOLD]
  have hhi : ((rank_candidates oneCandidateAutoEnv.fusion { name := "q" }
      [(storedEntity "w1", 1)]).headI).2.final_score < HIGH_THRESHOLD := by
    rw [hbest]; norm_num [HIGH_THRESHOLD]
  have h := C1_threshold_decision_policy oneCandidateAutoEnv { name := "q" } false
    [(storedEntity "w1", 1)] hres (by simp)
  exact ⟨hres, by simp, hlo, hhi, (h.2.2.2 hlo hhi).1 rfl⟩

/-- C2 (counterexample): `auto_decide` has a return path that records
NOTHING: when the retrieval stage raises (here: both vectorization calls
fail, as the `except` fallback at disambiguation.py line 224 can itself
raise), the outer `except` (lines 158-166) returns the degraded result
WITHOUT calling `_save_history` — zero records appended, not one. -/
theorem C2_counterexample_failed_request_records_nothing :
    auto_decide failedRetrievalAutoEnv { name := "q" } false = (error_result, 0)
      ∧ (0 : ℕ) ≠ 1 := by
  exact ⟨rfl, by norm_num⟩

/-- C2 (amended): every resolution request whose retrieval stage returns
(rather than raises) appends exactly one history record — including the
no-candidate and low-confidence outcomes; the outer-exception path
returns the failure result without recording. -/
theorem C2_amended_ok_retrieval_records_exactly_once (env : AutoEnv) (input : Entity)
    (force : Bool) (l : List (Entity × ℚ))
    (h : smart_search env.search input FAISS_TOP_K = .ok l) :
    (auto_decide env input force).2 = 1 := by
  unfold auto_decide auto_decide_try
  rw [h]
  cases l <;> rfl

/-- Witness for C2_amended_ok_retrieval_records_exactly_once: a request
against an empty backend retrieves `.ok []` and appends exactly one
record. -/
theorem C2_amended_witness :
    smart_search ({} : AutoEnv).search { name := "q" } FAISS_TOP_K = .ok []
      ∧ (auto_decide {} { name := "q" } false).2 = 1 := by
  have h : smart_search ({} : AutoEnv).search { name := "q" } FAISS_TOP_K = .ok [] := by
    norm_num [smart_search, search_similar_entities, faiss_search, optStrTruthy,
      FAISS_TOP_K, List.insertionSort]
  exact ⟨h, C2_amended_ok_retrieval_records_exactly_once {} { name := "q" } false [] h⟩

/-- C5 (counterexample): on the untyped path (`input.type` falsy, or no
type-scoped hits) `_smart_search_similar_entities` returns the raw global
vector results truncated to `top_k` WITHOUT deduplicating by name: two
stored ids resolving to same-named entities both appear. -/
theorem C5_counterexample_duplicate_names_on_untyped_path :
    smart_search dupNamesSearchEnv { name := "q" } 10
        = .ok [(storedEntity "id1", 1), (storedEntity "id2", 1)]
      ∧ (storedEntity "id1").name = (storedEntity "id2").name
      ∧ storedEntity "id1" ≠ storedEntity "id2" := by
  refine ⟨?_, rfl, by decide⟩
  norm_num [smart_search, dupNamesSearchEnv, dupNamesVectorEnv, search_similar_entities,
    faiss_search, dot, optStrTruthy, List.insertionSort, List.orderedInsert,
    List.filterMap_cons, storedEntity]

/-- C5 (amended): every successfully returned candidate list is truncated
to at most `top_k` entries; name-deduplication (first occurrence wins,
type-scoped results scanned first) is applied ONLY on the type-merge path
— there the returned list never holds two candidates with the same name —
while the untyped / empty-type-result / degraded paths return the raw
vector results, where duplicate names are possible. -/
theorem C5_amended_dedup_only_on_type_merge_path (env : SmartSearchEnv) (input : Entity)
    (top_k : ℕ) :
    (∀ l, smart_search env input top_k = .ok l → l.length ≤ top_k)
      ∧ (env.primaryCallOk = true → optStrTruthy input.type = true →
          ∀ tes, env.typeEntities = .ok tes → tes.isEmpty = false →
            ∀ l, smart_search env input top_k = .ok l →
              l.Pairwise (fun p q => p.1.name ≠ q.1.name)) := by
  constructor
  · intro l hl
    simp only [smart_search] at hl
    by_cases hp : env.primaryCallOk = true
    · simp only [hp, Bool.not_true, Bool.false_eq_true, if_false] at hl
      by_cases ht : optStrTruthy input.type = true
      · simp only [ht, if_true] at hl
        cases hte : env.typeEntities with
        | error e =>
          rw [hte] at hl
          by_cases hf : env.fallbackCallOk = true
          · simp only [hf, if_true, Except.ok.injEq] at hl
            exact hl ▸ search_similar_entities_length env.vector input top_k
          · simp only [hf, Bool.false_eq_true, if_false] at hl
            exact absurd hl (by simp)
        | ok tes =>
          rw [hte] at hl
          by_cases hemp : tes.isEmpty = true
          · simp only [hemp, if_true, Except.ok.injEq] at hl
            exact hl ▸ List.length_take_le _ _
          · simp only [hemp, Bool.false_eq_true, if_false, Except.ok.injEq] at hl
            exact hl ▸ List.length_take_le _ _
      · simp only [ht, Bool.false_eq_true, if_false, Except.ok.injEq] at hl
        exact hl ▸ List.length_take_le _ _
    · simp only [hp, Bool.not_true, Bool.false_eq_true] at hl
      simp only [Bool.not_false, if_true] at hl
      by_cases hf : env.fallbackCallOk = true
      · simp only [hf, if_true, Except.ok.injEq] at hl
        exact hl ▸ search_similar_entities_length env.vector input top_k
      · simp only [hf, Bool.false_eq_true, if_false] at hl
        exact absurd hl (by simp)
  · intro hp ht tes hte hemp l hl
    simp only [smart_search, hp, Bool.not_true, Bool.false_eq_true, if_false, ht,
      if_true, hte, hemp, Except.ok.injEq] at hl
    exact hl ▸ List.Pairwise.sublist (List.take_sublist _ _) (dedupNames_sound _ []).1

/-- Witness for C5_amended_dedup_only_on_type_merge_path: a typed request
whose single type-scoped hit merges ahead of an empty global pool returns
one candidate and no repeated names. -/
theorem C5_amended_witness :
    typeScopedSearchEnv.primaryCallOk = true
      ∧ optStrTruthy (Entity.type { name := "q", type := some "疾病" }) = true
      ∧ typeScopedSearchEnv.typeEntities = .ok [storedEntity "t1"]
      ∧ ([storedEntity "t1"] : List Entity).isEmpty = false
      ∧ smart_search typeScopedSearchEnv { name := "q", type := some "疾病" } 10
          = .ok [(storedEntity "t1", 1)]
      ∧ ([((storedEntity "t1" : Entity), (1 : ℚ))]).Pairwise
          (fun p q => p.1.name ≠ q.1.name) := by
  have hsearch : smart_search typeScopedSearchEnv { name := "q", type := some "疾病" } 10
      = .ok [(storedEntity "t1", 1)] := by
    norm_num [smart_search, typeScopedSearchEnv, search_similar_entities,
      dedupNames, List.insertionSort, List.orderedInsert, storedEntity,
      (by decide : optStrTruthy (some "疾病") = true)]
  refine ⟨rfl, by decide, rfl, by decide, hsearch, ?_⟩
  exact (C5_amended_dedup_only_on_type_merge_path typeScopedSearchEnv
      { name := "q", type := some "疾病" } 10).2 rfl (by decide)
    [storedEntity "t1"] rfl (by decide) [(storedEntity "t1", 1)] hsearch

/-- C6 (counterexample): an entity-store outage does NOT surface to the
caller as an error: the store layer degrades its own failures (empty
type-scoped list, `None` id lookups), retrieval returns `.ok []`, and
`auto_decide` answers with the perfectly NORMAL no-candidate result —
decision Create, confidence 1.0 — indistinguishable from "no similar
entity found".  Even when retrieval raises, the outer `except` converts
it into a normal Create result (see the amended theorem), so no
store-unavailable condition ever reaches the caller as an error. -/
theorem C6_counterexample_store_down_swallowed :
    auto_decide storeDownAutoEnv { name := "q", type := some "疾病" } false
        = (no_candidates_result, 1)
      ∧ no_candidates_result.decision = DecisionType.create
      ∧ no_candidates_result.confidence = 1 := by
  refine ⟨?_, rfl, rfl⟩
  have hss : smart_search storeDownAutoEnv.search { name := "q", type := some "疾病" }
      FAISS_TOP_K = .ok [] := by
    norm_num [smart_search, storeDownAutoEnv, search_similar_entities, faiss_search,
      dot, List.insertionSort, List.orderedInsert, FAISS_TOP_K,
      (by decide : optStrTruthy (some "疾病") = true)]
  unfold auto_decide auto_decide_try
  rw [hss]
  rfl

/-- C6 (amended): no capability failure — entity-store unavailability
included — propagates an exception out of `auto_decide` or surfaces as an
error: a raised retrieval failure is caught by the outer `except` and
degraded to the normal failure result (decision Create, confidence 0.0,
nothing recorded), and store failures that degrade inside the store layer
yield the ordinary no-candidate Create result. -/
theorem C6_amended_no_failure_surfaces (env : AutoEnv) (input : Entity) (force : Bool)
    (h : smart_search env.search input FAISS_TOP_K = .error ()) :
    auto_decide env input force = (error_result, 0) := by
  unfold auto_decide auto_decide_try
  rw [h]
  rfl

/-- Witness for C6_amended_no_failure_surfaces: both retrieval calls
raising yields the caught-and-degraded failure result. -/
theorem C6_amended_witness :
    smart_search failedRetrievalAutoEnv.search { name := "q" } FAISS_TOP_K = .error ()
      ∧ auto_decide failedRetrievalAutoEnv { name := "q" } false = (error_result, 0) :=
  ⟨rfl, C6_amended_no_failure_surfaces failedRetrievalAutoEnv { name := "q" } false rfl⟩

/-- C7 (counterexample): `refresh_nacos_config` is NOT build-then-swap and
does not return false on total construction failure: with one live
backend and a pushed config whose only backend fails to construct, it
first CLOSES the live handle, keeps the stale key in place, and returns
TRUE. -/
theorem C7_counterexample_refresh_true_on_total_failure :
    (refresh_nacos_config prevRegistry badPushRefreshEnv).2 = true
      ∧ list_keys (refresh_nacos_config prevRegistry badPushRefreshEnv).1 = ["a"]
      ∧ (refresh_nacos_config prevRegistry badPushRefreshEnv).1.services
          = [("a", { gen := 0, closed := true })] := by
  exact ⟨rfl, rfl, rfl⟩

/-- C7 (amended): `refresh_nacos_config` mutates the live mapping in
place (closing every existing handle first); when the config service is
reachable and every newly configured backend fails to construct while the
previous registry was non-empty, the key set and default key are left
unchanged (the handles now closed) and the call returns TRUE — it returns
false only when the config service is unreachable or initialization
itself raises. -/
theorem C7_amended_refresh_in_place (st : DBManager) (env : RefreshEnv)
    (hn : env.nacosAvailable = true)
    (hh : env.init.historyOk = true) (hi : env.init.importOk = true)
    (hc : ∀ p ∈ env.init.configs, p.2 = false)
    (hs : st.services ≠ []) :
    (refresh_nacos_config st env).2 = true
      ∧ list_keys (refresh_nacos_config st env).1 = list_keys st
      ∧ (refresh_nacos_config st env).1.default_key = st.default_key
      ∧ (refresh_nacos_config st env).1.services = close_all st.services := by
  have hne : (close_all st.services).isEmpty = false := by
    cases hsv : st.services with
    | nil => exact absurd hsv hs
    | cons a tl => simp [close_all, hsv]
  have hrun : refresh_nacos_config st env
      = ({ services := close_all st.services, default_key := st.default_key }, true) := by
    unfold refresh_nacos_config
    rw [hn]
    simp only [Bool.not_true, Bool.false_eq_true, if_false]
    unfold init_services
    rw [hh, hi]
    simp only [Bool.not_true, Bool.false_eq_true, if_false]
    rw [init_foldl_all_failed env.init.configs hc _ env.init.newGen]
    simp only [hne, Bool.false_eq_true, if_false]
    rfl
  rw [hrun]
  exact ⟨rfl, close_all_keys st.services, rfl, rfl⟩

/-- Witness for C7_amended_refresh_in_place: the concrete bad push against
the one-backend registry keeps key "a" and returns true. -/
theorem C7_amended_witness :
    badPushRefreshEnv.nacosAvailable = true
      ∧ badPushRefreshEnv.init.historyOk = true
      ∧ badPushRefreshEnv.init.importOk = true
      ∧ (∀ p ∈ badPushRefreshEnv.init.configs, p.2 = false)
      ∧ prevRegistry.services ≠ []
      ∧ (refresh_nacos_config prevRegistry badPushRefreshEnv).2 = true
      ∧ list_keys (refresh_nacos_config prevRegistry badPushRefreshEnv).1
          = list_keys prevRegistry := by
  have h := C7_amended_refresh_in_place prevRegistry badPushRefreshEnv rfl rfl rfl
    (by decide) (by simp [prevRegistry])
  exact ⟨rfl, rfl, rfl, by decide, by simp [prevRegistry], h.1, h.2.1⟩

end EntityDisambiguation
